import Mathlib

/-
Verification of the FilteredFlux photometry algorithm
(src/src/flux/FilteredFlux.cc, FilteredFlux::_apply).

The embedding uses exact rational arithmetic in place of C++ doubles.
Pure orchestration code in _apply is translated directly from the source;
external afw collaborators (positionToIndex, indexToPosition, kernel image
computation with normalization, makeWarpingKernel, convolveAtAPoint) are
modelled from the spec at their interfaces, as marked on each definition.
-/

namespace FilteredFlux

/-- A kernel image: a 2D grid of rational weights with declared dimensions.
Embeds the afw kernel images used by FilteredFlux::_apply. -/
structure KernelImage where
  width : Nat
  height : Nat
  cells : Nat → Nat → ℚ

/-- Sum of f over the grid 0..w-1 x 0..h-1, the double loop shape used at
FilteredFlux.cc lines 112-117. -/
def gridSum (w h : Nat) (f : Nat → Nat → ℚ) : ℚ :=
  ((List.range w).map (fun i => ((List.range h).map (fun j => f i j)).sum)).sum

/-- Total weight of a kernel image. -/
def kernelSum (k : KernelImage) : ℚ :=
  gridSum k.width k.height k.cells

/-- Modelled from the spec: external afw kernel-image computation with
normalization (Kernel::computeImage with doNormalize true, FilteredFlux.cc
line 110): the kernel weights are divided by their total so that they sum
to 1. Division is total rational division, so an all-zero kernel stays
all-zero rather than raising an error; the spec attributes the degenerate
failure to the weight step, not to normalization. -/
def normalize (k : KernelImage) : KernelImage :=
  KernelImage.mk k.width k.height (fun i j => k.cells i j / kernelSum k)

/-- Sum of squared cells: psfSqSum of FilteredFlux.cc lines 111-117. -/
def sqSum (k : KernelImage) : ℚ :=
  gridSum k.width k.height (fun i j => k.cells i j * k.cells i j)

/-- An exposure's masked image: value and variance planes indexed by local
array coordinates 0..width-1 x 0..height-1, plus the integer origin
(getXY0) mapping array cell (0,0) to a parent image coordinate. -/
structure MaskedImage where
  width : Nat
  height : Nat
  x0 : Int
  y0 : Int
  pixel : Int → Int → ℚ
  varpix : Int → Int → ℚ

/-- Modelled from the spec: PixelGridMapper (the external afw member
positionToIndex called at FilteredFlux.cc lines 100-101): round a continuous
position to the local index of the nearest pixel, with the signed fractional
residual in the interval from -1/2 inclusive to 1/2 exclusive. -/
def positionToIndex (origin : Int) (pos : ℚ) : Int × ℚ :=
  let full : ℚ := pos - (origin : ℚ)
  let ind : Int := (full + 1/2).floor
  (ind, full - (ind : ℚ))

/-- Modelled from the spec: the inverse mapping (the external afw member
indexToPosition called at FilteredFlux.cc lines 105-106): the continuous
position of the pixel at a given local index. -/
def indexToPosition (origin : Int) (ind : Int) : ℚ :=
  (ind : ℚ) + (origin : ℚ)

/-- Weight computation of FilteredFlux.cc lines 99-118: the PSF local kernel
image is taken at ctrPixPos, the continuous position of the pixel nearest to
center (lines 104-107), normalized to a sum of 1 (line 110), and the weight
is 1 divided by the sum of its squared cells (lines 111-118). The source
performs no zero test before dividing. -/
def computeWeight (psf : ℚ → ℚ → KernelImage) (img : MaskedImage) (center : ℚ × ℚ) : ℚ :=
  let xCtrPixIndFrac := positionToIndex img.x0 center.1
  let yCtrPixIndFrac := positionToIndex img.y0 center.2
  let ctrPixPosX := indexToPosition img.x0 xCtrPixIndFrac.1
  let ctrPixPosY := indexToPosition img.y0 yCtrPixIndFrac.1
  let psfImage := normalize (psf ctrPixPosX ctrPixPosY)
  1 / sqSum psfImage

/-- Modelled from the spec: a separable resampling-kernel family as produced
by the external afw makeWarpingKernel (FilteredFlux.cc line 125): fixed even
dimensions, a base center cell, and a normalized kernel image parameterized
by the fractional offsets dx and dy. -/
structure WarpSpec where
  width : Nat
  height : Nat
  baseCtrX : Int
  baseCtrY : Int
  image : ℚ → ℚ → Nat → Nat → ℚ

/-- Modelled from the spec: one axis of the bilinear resampling family. Two
taps interpolate linearly at fractional offset d; for nonnegative d the taps
are 1-d and d, for negative d they are -d and 1+d, so that the delta limit at
d of 0 sits on the declared center after the parity tie-break. -/
def bilinearTap (d : ℚ) : Nat → ℚ
  | 0 => if d < 0 then -d else 1 - d
  | 1 => if d < 0 then 1 + d else d
  | _ => 0

/-- Modelled from the spec: the bilinear warping-kernel family, 2 by 2,
separable, base center cell (0,0). -/
def bilinearFamily : WarpSpec :=
  WarpSpec.mk 2 2 0 0 (fun dx dy i j => bilinearTap dx i * bilinearTap dy j)

/-- Name of the bilinear family. -/
def bilinearName : String := "bilinear"

/-- Modelled from the spec: the recognized warping-kernel families of the
external afw makeWarpingKernel; an unrecognized name yields none, standing
for the configuration exception thrown at FilteredFlux.cc line 125. Only the
bilinear family is modelled concretely; theorems about name recognition are
parametric in the table. -/
def defaultWarpTable : String → Option WarpSpec :=
  fun s => if s = bilinearName then some bilinearFamily else none

/-- Center shift of FilteredFlux.cc lines 130-136: warping kernels have even
dimension and want the peak to the right of center, so the declared center
coordinate is incremented by one exactly when the fractional offset is
strictly negative. -/
def warpCtrShift (base : Int) (d : ℚ) : Int :=
  base + (if d < 0 then 1 else 0)

/-- Whether a kw by kh kernel footprint whose cell (0,0) lies at local cell
(ox, oy) stays inside the stored bounds of the image. -/
def inBoundsRect (img : MaskedImage) (ox oy : Int) (kw kh : Nat) : Bool :=
  decide (0 ≤ ox) && decide (ox + (kw : Int) ≤ (img.width : Int)) &&
    decide (0 ≤ oy) && decide (oy + (kh : Int) ≤ (img.height : Int))

/-- Convolved value: sum over the kernel footprint of kernel weight times
pixel value (spec section on PointConvolver). -/
def convValue (img : MaskedImage) (k : Nat → Nat → ℚ) (kw kh : Nat) (ox oy : Int) : ℚ :=
  gridSum kw kh (fun i j => k i j * img.pixel (ox + (i : Int)) (oy + (j : Int)))

/-- Convolved variance: sum over the kernel footprint of squared kernel
weight times pixel variance (spec section on PointConvolver). -/
def convVariance (img : MaskedImage) (k : Nat → Nat → ℚ) (kw kh : Nat) (ox oy : Int) : ℚ :=
  gridSum kw kh (fun i j => k i j * k i j * img.varpix (ox + (i : Int)) (oy + (j : Int)))

/-- Modelled from the spec: PointConvolver (the external afw convolveAtAPoint
called at FilteredFlux.cc lines 146-147) with the bounds contract of the
spec: value and variance are the weighted sums over the footprint, and a
footprint leaving the stored bounds is a BoundsError, here none. -/
def convolveAtAPoint (img : MaskedImage) (k : Nat → Nat → ℚ) (kw kh : Nat) (ox oy : Int) :
    Option (ℚ × ℚ) :=
  if inBoundsRect img ox oy kw kh then
    some (convValue img k kw kh ox oy, convVariance img k kw kh ox oy)
  else
    none

/-- Alignment offset actually used by the source (FilteredFlux.cc line 144):
subimMin is getXY0() minus the warping-kernel center, and this is handed to
xy_at as the local coordinate of the convolution footprint. Note that the
nearest-pixel index computed at lines 100-101 does not appear here. -/
def alignmentOffsetUsed (img : MaskedImage) (ctr : Int × Int) : Int × Int :=
  (img.x0 - ctr.1, img.y0 - ctr.2)

/-- Follows the spec's words: the alignment offset is nearestPixelIndex minus
kernelCenter, so that kernel cell (0,0) overlaps the image at the pixel
nearest the source center. Written for comparison with alignmentOffsetUsed. -/
def specAlignmentOffset (img : MaskedImage) (center : ℚ × ℚ) (ctr : Int × Int) : Int × Int :=
  ((positionToIndex img.x0 center.1).1 - ctr.1, (positionToIndex img.y0 center.2).1 - ctr.2)

/-- Caller-supplied output record: the three slots written by FilteredFlux
(failure flag, flux measurement slot, flux error slot) plus an abstract
field standing for every other field of the source record. -/
structure SourceRecord (α : Type) where
  flag : Bool
  meas : Option ℚ
  err : Option ℚ
  extra : α

/-- Errors propagating out of a call, per the modelled external contracts. -/
inductive MeasError where
  | configError : MeasError
  | boundsError : MeasError
deriving DecidableEq

/-- Final portion of FilteredFlux.cc lines 146-154: given the weight, the
record with the flag already raised, and the optional convolution result,
either propagate the bounds failure or write flux, flux variance and clear
the flag as the last step. -/
def applyConv {α : Type} (weight : ℚ) (source1 : SourceRecord α)
    (copt : Option (ℚ × ℚ)) : SourceRecord α × Option MeasError :=
  match copt with
  | none => (source1, some MeasError.boundsError)
  | some px =>
    ({ source1 with
        meas := some (px.1 * weight)
        err := some (px.2 * weight * weight)
        flag := false }, none)

/-- Embedding of FilteredFlux::_apply (FilteredFlux.cc lines 86-155),
parameterized by the external warping-kernel table and the external PSF
local-kernel capability. The returned error component stands for the
exception propagating out of the call; the returned record reflects exactly
the mutations performed before the throw. -/
def _apply {α : Type} (table : String → Option WarpSpec) (warpingKernelName : String)
    (psf : ℚ → ℚ → KernelImage) (mimage : MaskedImage) (center : ℚ × ℚ)
    (source : SourceRecord α) : SourceRecord α × Option MeasError :=
  let source1 : SourceRecord α := { source with flag := true }
  let xCtrPixIndFrac := positionToIndex mimage.x0 center.1
  let yCtrPixIndFrac := positionToIndex mimage.y0 center.2
  let weight := computeWeight psf mimage center
  match table warpingKernelName with
  | none => (source1, some MeasError.configError)
  | some wk =>
    let dKerX := xCtrPixIndFrac.2
    let dKerY := yCtrPixIndFrac.2
    let ctrX := warpCtrShift wk.baseCtrX dKerX
    let ctrY := warpCtrShift wk.baseCtrY dKerY
    let wImage := wk.image dKerX dKerY
    let subimMin := alignmentOffsetUsed mimage (ctrX, ctrY)
    applyConv weight source1
      (convolveAtAPoint mimage wImage wk.width wk.height subimMin.1 subimMin.2)

/-- Test fixture: a spatially constant PSF whose local kernel image is a 5 by 5
grid with a single unit weight at the center cell (2,2). -/
def psfDelta : ℚ → ℚ → KernelImage :=
  fun _ _ => KernelImage.mk 5 5 (fun i j => if i = 2 ∧ j = 2 then 1 else 0)

/-- Test fixture: a degenerate PSF whose local kernel image is all zero. -/
def psfZero : ℚ → ℚ → KernelImage :=
  fun _ _ => KernelImage.mk 3 3 (fun _ _ => 0)

/-- Test fixture: a 5 by 5 image with origin (0,0), value 0 everywhere except
100 at the center cell (2,2), and variance 1 everywhere. -/
def img5 : MaskedImage :=
  MaskedImage.mk 5 5 0 0 (fun x y => if x = 2 ∧ y = 2 then 100 else 0) (fun _ _ => 1)

/-- Test fixture: a 10 by 10 image of zeros with origin (5,5) and variance 1. -/
def img10 : MaskedImage :=
  MaskedImage.mk 10 10 5 5 (fun _ _ => 0) (fun _ _ => 1)

/-- Test fixture: a fresh output record with the flag clear and empty slots. -/
def rec0 : SourceRecord Unit := SourceRecord.mk false none none ()

/-- Test fixture: a source center exactly at the center pixel of img5. -/
def centerMid : ℚ × ℚ := (2, 2)

/-- Test fixture: a second exact-pixel source center inside img5, whose nearest
pixel differs from that of centerMid. -/
def centerAlt : ℚ × ℚ := (1, 1)

/-- Test fixture: a source center at the far corner pixel of img10, whose
2 by 2 warp footprint around the nearest pixel exceeds the image bounds. -/
def centerEdge : ℚ × ℚ := (14, 14)

/-- Test fixture: a warping-kernel name recognized by no family table. -/
def badName : String := "unknownKernel"

theorem applyConv_extra {α : Type} (w : ℚ) (s : SourceRecord α) (copt : Option (ℚ × ℚ)) :
    (applyConv w s copt).1.extra = s.extra := by
  cases copt <;> rfl

theorem applyConv_fail {α : Type} (w : ℚ) (s : SourceRecord α) (copt : Option (ℚ × ℚ))
    (h : (applyConv w s copt).2 ≠ none) : (applyConv w s copt).1 = s := by
  cases copt with
  | none => rfl
  | some px => exact absurd rfl h

theorem applyConv_ok {α : Type} (w : ℚ) (s : SourceRecord α) (copt : Option (ℚ × ℚ))
    (h : (applyConv w s copt).2 = none) :
    (applyConv w s copt).1.flag = false ∧
    (∃ f, (applyConv w s copt).1.meas = some f) ∧
    (∃ v, (applyConv w s copt).1.err = some v) := by
  cases copt with
  | none => exact Option.noConfusion h
  | some px => exact ⟨rfl, ⟨_, rfl⟩, ⟨_, rfl⟩⟩

theorem applyConv_weight_indep {α : Type} (w w2 : ℚ) (s : SourceRecord α)
    (copt : Option (ℚ × ℚ)) :
    (applyConv w s copt).2 = (applyConv w2 s copt).2 ∧
    (applyConv w s copt).1.flag = (applyConv w2 s copt).1.flag := by
  cases copt <;> exact ⟨rfl, rfl⟩

/-- Claim C1, counterexample: for a PSF kernel image that is all zero, so that the
normalized kernel has zero total squared weight, the weight computation does not fail:
the call returns no error, the failed flag is cleared, and flux and variance values are
written, contradicting the claim that the call aborts with a ComputationError. -/
theorem C1_counterexample :
    sqSum (normalize (psfZero 2 2)) = 0 ∧
    (_apply defaultWarpTable bilinearName psfZero img5 centerMid rec0).2 = none ∧
    (_apply defaultWarpTable bilinearName psfZero img5 centerMid rec0).1.flag = false ∧
    (_apply defaultWarpTable bilinearName psfZero img5 centerMid rec0).1.meas = some 0 ∧
    (_apply defaultWarpTable bilinearName psfZero img5 centerMid rec0).1.err = some 0 := by
  refine ⟨?_, ?_, ?_, ?_, ?_⟩ <;> with_unfolding_all decide

/-- Claim C1, amended: the code performs no degenerate-PSF check at all. Whether the
call fails, with which error, and the final state of the failed flag are independent of
the PSF kernel image entirely; in particular a degenerate all-zero PSF never aborts the
call by itself, the weight being computed as 1 divided by zero. -/
theorem C1_theorem {α : Type} (table : String → Option WarpSpec) (name : String)
    (psf psf2 : ℚ → ℚ → KernelImage) (img : MaskedImage) (c : ℚ × ℚ)
    (src : SourceRecord α) :
    (_apply table name psf img c src).2 = (_apply table name psf2 img c src).2 ∧
    (_apply table name psf img c src).1.flag = (_apply table name psf2 img c src).1.flag := by
  unfold _apply
  rcases table name with _ | wk
  · exact ⟨rfl, rfl⟩
  · exact applyConv_weight_indep _ _ _ _

/-- Claim C2: the failed flag is raised before any computation, so every failing call
leaves the flag true and both output slots exactly as the caller supplied them; flux,
variance and the cleared flag are written only on a fully successful call. -/
theorem C2_theorem {α : Type} (table : String → Option WarpSpec) (name : String)
    (psf : ℚ → ℚ → KernelImage) (img : MaskedImage) (c : ℚ × ℚ) (src : SourceRecord α) :
    ((_apply table name psf img c src).2 ≠ none →
      (_apply table name psf img c src).1.flag = true ∧
      (_apply table name psf img c src).1.meas = src.meas ∧
      (_apply table name psf img c src).1.err = src.err) ∧
    ((_apply table name psf img c src).2 = none →
      (_apply table name psf img c src).1.flag = false ∧
      (∃ f, (_apply table name psf img c src).1.meas = some f) ∧
      (∃ v, (_apply table name psf img c src).1.err = some v)) := by
  unfold _apply
  rcases table name with _ | wk
  · exact ⟨fun _ => ⟨rfl, rfl, rfl⟩, fun h => Option.noConfusion h⟩
  · constructor
    · intro h
      rw [applyConv_fail _ _ _ h]
      exact ⟨rfl, rfl, rfl⟩
    · intro h
      exact applyConv_ok _ _ _ h

/-- Claim C2 witness: a concrete failing call (unrecognized warping-kernel name) leaves
the flag true and both slots untouched. -/
theorem C2_witness :
    (_apply defaultWarpTable badName psfDelta img5 centerMid rec0).1.flag = true ∧
    (_apply defaultWarpTable badName psfDelta img5 centerMid rec0).1.meas = rec0.meas ∧
    (_apply defaultWarpTable badName psfDelta img5 centerMid rec0).1.err = rec0.err :=
  (C2_theorem defaultWarpTable badName psfDelta img5 centerMid rec0).1
    (by with_unfolding_all decide)

/-- Claim C3: for a fractional offset of exactly 0 the declared warp-kernel center
coordinate is unchanged, and for any strictly negative fractional offset it is
incremented by exactly 1; the same function is applied to both axes in _apply, and the
shift is applied to the center used by the subsequent convolution placement. -/
theorem C3_theorem (base : Int) (d : ℚ) :
    (d = 0 → warpCtrShift base d = base) ∧
    (d < 0 → warpCtrShift base d = base + 1) := by
  constructor
  · intro h
    subst h
    norm_num [warpCtrShift]
  · intro h
    simp [warpCtrShift, h]

/-- Claim C3 witness: concrete shifts at offset 0 and at a small negative offset. -/
theorem C3_witness :
    warpCtrShift 0 0 = 0 ∧ warpCtrShift 0 (-1/100) = 1 :=
  ⟨(C3_theorem 0 0).1 rfl, (C3_theorem 0 (-1/100)).2 (by norm_num)⟩

/-- Claim C4: the weight equals 1 divided by the sum of squares of the PSF kernel image
normalized to sum 1, with the PSF evaluated at the continuous position of the pixel
nearest the source center, obtained by the inverse mapping of the rounded index; hence
any two centers with the same nearest pixel yield the same weight. -/
theorem C4_theorem (psf : ℚ → ℚ → KernelImage) (img : MaskedImage) (c : ℚ × ℚ) :
    computeWeight psf img c =
      1 / sqSum (normalize (psf (indexToPosition img.x0 (positionToIndex img.x0 c.1).1)
        (indexToPosition img.y0 (positionToIndex img.y0 c.2).1))) ∧
    (∀ c2 : ℚ × ℚ, (positionToIndex img.x0 c2.1).1 = (positionToIndex img.x0 c.1).1 →
      (positionToIndex img.y0 c2.2).1 = (positionToIndex img.y0 c.2).1 →
      computeWeight psf img c2 = computeWeight psf img c) := by
  refine ⟨rfl, ?_⟩
  intro c2 hx hy
  simp only [computeWeight]
  rw [hx, hy]

/-- Claim C4 witness: two fractionally offset centers sharing the nearest pixel with
centerMid give the same weight. -/
theorem C4_witness :
    computeWeight psfDelta img5 (9/4, 7/4) = computeWeight psfDelta img5 centerMid :=
  (C4_theorem psfDelta img5 centerMid).2 (9/4, 7/4)
    (by with_unfolding_all decide) (by with_unfolding_all decide)

/-- Claim C5: on a successful call the written flux is the convolved value, the sum over
the kernel footprint of kernel weight times pixel value, multiplied by the weight; and
the written variance is the convolved variance, the sum of squared kernel weight times
pixel variance, multiplied by the weight squared. -/
theorem C5_theorem {α : Type} (table : String → Option WarpSpec) (name : String)
    (psf : ℚ → ℚ → KernelImage) (img : MaskedImage) (c : ℚ × ℚ) (src : SourceRecord α)
    (wk : WarpSpec) (dx dy : ℚ) (ox oy : Int)
    (ht : table name = some wk)
    (hdx : dx = (positionToIndex img.x0 c.1).2)
    (hdy : dy = (positionToIndex img.y0 c.2).2)
    (hox : ox = img.x0 - warpCtrShift wk.baseCtrX dx)
    (hoy : oy = img.y0 - warpCtrShift wk.baseCtrY dy)
    (hb : inBoundsRect img ox oy wk.width wk.height = true) :
    (_apply table name psf img c src).1.meas =
      some (convValue img (wk.image dx dy) wk.width wk.height ox oy *
        computeWeight psf img c) ∧
    (_apply table name psf img c src).1.err =
      some (convVariance img (wk.image dx dy) wk.width wk.height ox oy *
        computeWeight psf img c * computeWeight psf img c) ∧
    (_apply table name psf img c src).2 = none := by
  subst hdx
  subst hdy
  subst hox
  subst hoy
  simp only [_apply, ht, alignmentOffsetUsed, convolveAtAPoint, hb, if_true, applyConv]
  exact ⟨trivial, trivial, trivial⟩

/-- Claim C5 witness: the concrete successful centerMid call writes exactly the
convolved value times the weight and the convolved variance times the weight squared. -/
theorem C5_witness :
    (_apply defaultWarpTable bilinearName psfDelta img5 centerMid rec0).1.meas =
      some (convValue img5 (bilinearFamily.image 0 0) bilinearFamily.width
        bilinearFamily.height 0 0 * computeWeight psfDelta img5 centerMid) :=
  (C5_theorem defaultWarpTable bilinearName psfDelta img5 centerMid rec0 bilinearFamily
    0 0 0 0 rfl (by with_unfolding_all decide) (by with_unfolding_all decide)
    (by with_unfolding_all decide) (by with_unfolding_all decide)
    (by with_unfolding_all decide)).1

/-- Claim C6, refuting theorem: the alignment offset the code hands to the convolution
is the image origin minus the kernel center, not the nearest-pixel index minus the
kernel center: on img5 with the source centered at pixel (2,2) the two differ, and
consequently moving the source center from centerMid to centerAlt, which changes the
nearest pixel, does not change the measured flux at all. -/
theorem C6_theorem :
    alignmentOffsetUsed img5 (0, 0) ≠ specAlignmentOffset img5 centerMid (0, 0) ∧
    (_apply defaultWarpTable bilinearName psfDelta img5 centerMid rec0).1.meas =
      (_apply defaultWarpTable bilinearName psfDelta img5 centerAlt rec0).1.meas := by
  refine ⟨?_, ?_⟩ <;> with_unfolding_all decide

/-- Claim C7, refuting theorem: with the source at centerEdge the warp-kernel footprint
around the nearest pixel extends past the bounds of img10, yet the call raises no error
and clears the failed flag, because the convolution footprint the code actually uses is
placed from the image origin and ignores the nearest pixel. -/
theorem C7_theorem :
    inBoundsRect img10
      (specAlignmentOffset img10 centerEdge
        (warpCtrShift bilinearFamily.baseCtrX (positionToIndex img10.x0 centerEdge.1).2,
         warpCtrShift bilinearFamily.baseCtrY (positionToIndex img10.y0 centerEdge.2).2)).1
      (specAlignmentOffset img10 centerEdge
        (warpCtrShift bilinearFamily.baseCtrX (positionToIndex img10.x0 centerEdge.1).2,
         warpCtrShift bilinearFamily.baseCtrY (positionToIndex img10.y0 centerEdge.2).2)).2
      bilinearFamily.width bilinearFamily.height = false ∧
    (_apply defaultWarpTable bilinearName psfDelta img10 centerEdge rec0).2 = none ∧
    (_apply defaultWarpTable bilinearName psfDelta img10 centerEdge rec0).1.flag = false := by
  refine ⟨?_, ?_, ?_⟩ <;> with_unfolding_all decide

/-- Claim C8: a warping-kernel name outside the recognized table makes the call fail
with the configuration error, the output record carrying only the raised flag; the
result is moreover identical for any two image planes, so the abort happens before any
image access. -/
theorem C8_theorem {α : Type} (table : String → Option WarpSpec) (name : String)
    (psf : ℚ → ℚ → KernelImage) (img img2 : MaskedImage) (c : ℚ × ℚ)
    (src : SourceRecord α) (h : table name = none) :
    _apply table name psf img c src =
      ({ src with flag := true }, some MeasError.configError) ∧
    _apply table name psf img c src = _apply table name psf img2 c src := by
  unfold _apply
  rw [h]
  exact ⟨rfl, rfl⟩

/-- Claim C8 witness: the concrete unrecognized name badName aborts the call with the
configuration error on the default table. -/
theorem C8_witness :
    _apply defaultWarpTable badName psfDelta img5 centerMid rec0 =
      ({ rec0 with flag := true }, some MeasError.configError) :=
  (C8_theorem defaultWarpTable badName psfDelta img5 img10 centerMid rec0 rfl).1

/-- Claim C9, refuting theorem: on the spec's concrete scenario, a 5 by 5 image that is
0 except 100 at the center cell with variance 1 everywhere, a single-unit-weight PSF and
the source exactly at the center pixel, the code computes weight 1 and finishes with the
failed flag clear, but writes flux 0, not 100: the misplaced convolution footprint reads
the image corner instead of the center pixel. -/
theorem C9_theorem :
    computeWeight psfDelta img5 centerMid = 1 ∧
    (_apply defaultWarpTable bilinearName psfDelta img5 centerMid rec0).1.meas = some 0 ∧
    (_apply defaultWarpTable bilinearName psfDelta img5 centerMid rec0).1.meas ≠ some 100 ∧
    (_apply defaultWarpTable bilinearName psfDelta img5 centerMid rec0).1.err = some 1 ∧
    (_apply defaultWarpTable bilinearName psfDelta img5 centerMid rec0).1.flag = false ∧
    (_apply defaultWarpTable bilinearName psfDelta img5 centerMid rec0).2 = none := by
  refine ⟨?_, ?_, ?_, ?_, ?_, ?_⟩ <;> with_unfolding_all decide

/-- Claim C10: every call, successful or failing, leaves every field of the source
record other than the three output slots unchanged; the exposure planes, the PSF and the
center are read-only inputs of the embedding. -/
theorem C10_theorem {α : Type} (table : String → Option WarpSpec) (name : String)
    (psf : ℚ → ℚ → KernelImage) (img : MaskedImage) (c : ℚ × ℚ) (src : SourceRecord α) :
    ((_apply table name psf img c src).1).extra = src.extra := by
  unfold _apply
  rcases table name with _ | wk
  · rfl
  · exact applyConv_extra _ _ _

end FilteredFlux
